import Mathlib

/-!
# Verification of the HourlyVoice plugin (`src/HourlyVoice/hourlyvoice.py`)

A shallow embedding of the plugin's pure control flow.  External effects
(HTTP requests, the filesystem, the clock, the random suffix) are supplied
by an explicit environment record, and each modelled routine returns,
besides its Python return value, a trace of the observable effects it
performed (HTTP attempts, sleeps, file writes, config saves, replies).
-/

set_option autoImplicit false

namespace HourlyVoice

/-- The `auto_report` block of the JSON configuration. -/
structure AutoReport where
  enabled : Bool
  channels : List String
  deriving DecidableEq, Repr

/-- The plugin configuration: an API base URL and the auto-report block. -/
structure Config where
  apiUrl : String
  autoReport : AutoReport
  deriving DecidableEq, Repr

/-- The default configuration created by `load_config`. -/
def defaultConfig : Config :=
  { apiUrl := "https://xiaoapi.cn/API/zs_zdbs.php"
    autoReport := { enabled := false, channels := [] } }

/-- The JSON payload returned by the report API, as read by `get_hour_voice`:
`data.get("code")`, `data.get("mp3")`, `data.get("msg")`, `data.get("time")`.
`none` models an absent key. -/
structure ApiData where
  code : Int
  mp3 : Option String
  msg : Option String
  time : Option String
  deriving DecidableEq, Repr

/-- The external world as observed by one call to `get_hour_voice`:
outcomes of the HTTP attempts, of the JSON decode and of the MP3 download,
the current hour, and the ingredients of the temporary file name. -/
structure Env where
  /-- `httpOk i` is true when the `i`-th `requests.get` of the API URL
  succeeds (no `requests.RequestException`, 2xx status). -/
  httpOk : Nat → Bool
  /-- Result of `response.json()`; `none` models a `JSONDecodeError`. -/
  json : Option ApiData
  /-- Whether the `requests.get` of the MP3 URL succeeds. -/
  mp3Ok : Bool
  /-- Size in bytes of the downloaded MP3 content. -/
  mp3Size : Nat
  /-- `datetime.datetime.now().hour`, in `0..23`. -/
  nowHour : Nat
  /-- `TmpDir().path()`. -/
  tmpDir : String
  /-- `int(time.time())`. -/
  timestamp : Nat
  /-- The six random lowercase letters. -/
  randomStr : String

/-- The argument of `get_hour_voice`: `None`, a string (from the `报时 N`
command), or an integer (from the auto-report loop). -/
inductive HourInput where
  | none
  | str (s : String)
  | int (n : Int)
  deriving DecidableEq, Repr

/-- Python whitespace as used by `str.strip()` and `\s` (ASCII range). -/
def isPySpace (c : Char) : Bool :=
  c = ' ' || c = '\t' || c = '\n' || c = '\r' || c = '\x0b' || c = '\x0c'

/-- Numeric value of a nonempty all-digit character list, else `none`. -/
def digitsVal? (cs : List Char) : Option Nat :=
  if cs ≠ [] ∧ cs.all Char.isDigit then
    some (cs.foldl (fun a c => a * 10 + (c.toNat - '0'.toNat)) 0)
  else
    Option.none

/-- Models Python `int(s)` on a decimal string: surrounding whitespace is
stripped, one optional sign, then decimal digits; `none` models the
`ValueError` branch.  (Underscore separators and non-ASCII digits are not
modelled; no claim depends on them.) -/
def pythonInt? (s : String) : Option Int :=
  let cs := ((s.toList.dropWhile isPySpace).reverse.dropWhile isPySpace).reverse
  match cs with
  | '+' :: rest => (digitsVal? rest).map Int.ofNat
  | '-' :: rest => (digitsVal? rest).map (fun n => -(Int.ofNat n))
  | rest => (digitsVal? rest).map Int.ofNat

/-- Lines 236-247 of `get_hour_voice`: substitute the current hour for
`None`, then `int(hour)`; `Except.error` is the `ValueError` reply. -/
def resolveHour (nowHour : Nat) : HourInput → Except String Int
  | .none => .ok (Int.ofNat nowHour)
  | .int n => .ok n
  | .str s =>
    match pythonInt? s with
    | some n => .ok n
    | Option.none => .error ("无效的小时格式: " ++ s)

/-- The retry loop of `get_hour_voice` (lines 252-263), `for retry in
range(3)`.  `left` is the number of iterations remaining (initially 3),
`retry` the current index.  Returns `(success, attempts made, sleeps
performed in seconds)`; on each failure that is not the last (`retry == 2`)
the code sleeps one second and retries. -/
def retryLoop (httpOk : Nat → Bool) : Nat → Nat → Bool × Nat × List Nat
  | 0, _ => (false, 0, [])
  | left + 1, retry =>
    if httpOk retry then
      (true, 1, [])
    else if left = 0 then
      (false, 1, [])
    else
      let r := retryLoop httpOk left (retry + 1)
      (r.1, r.2.1 + 1, 1 :: r.2.2)

/-- The temporary file path `hourly_voice_{hour}_{timestamp}_{random}.mp3`
under the temp directory. -/
def mp3FileName (env : Env) (hour : Int) : String :=
  env.tmpDir ++ "/hourly_voice_" ++ toString hour ++ "_" ++
    toString env.timestamp ++ "_" ++ env.randomStr ++ ".mp3"

/-- The message built for every branch where the voice is unavailable but
the API answered: `整点报时 ({time_str})：{text_msg}\n\n[语音获取失败]`. -/
def voiceFailMsg (timeStr textMsg : String) : String :=
  "整点报时 (" ++ timeStr ++ ")：" ++ textMsg ++ "\n\n[语音获取失败]"

/-- Return value and effect trace of one call to `get_hour_voice`. -/
structure FetchResult where
  /-- First component of the Python return pair: the MP3 path on success. -/
  voicePath : Option String
  /-- Second component: the announcement text or an error message. -/
  textMsg : String
  /-- The request URL `{api_url}?h={hour}`, when the code built one. -/
  requestUrl : Option String
  /-- How many `requests.get` of the API URL were issued. -/
  apiAttempts : Nat
  /-- Durations, in seconds, of the `time.sleep(1)` calls between retries. -/
  retrySleeps : List Nat
  /-- The in-memory `self.temp_files` list after the call. -/
  tempFiles : List String
  /-- The set of files on disk after the call (as a list of paths). -/
  files : List String
  deriving DecidableEq, Repr

/-- `get_hour_voice` (lines 226-324).  `tempFiles` and `files` are the
tracked temp-file list and the filesystem before the call. -/
def getHourVoice (cfg : Config) (env : Env) (tempFiles files : List String)
    (hour : HourInput) : FetchResult :=
  match resolveHour env.nowHour hour with
  | .error m => ⟨Option.none, m, Option.none, 0, [], tempFiles, files⟩
  | .ok h =>
    if h < 1 ∨ 24 < h then
      ⟨Option.none, "小时必须在1到24之间，您输入的是" ++ toString h,
        Option.none, 0, [], tempFiles, files⟩
    else
      let url := cfg.apiUrl ++ "?h=" ++ toString h
      let r := retryLoop env.httpOk 3 0
      let attempts := r.2.1
      let sleeps := r.2.2
      if ¬ r.1 then
        ⟨Option.none, "抱歉，报时服务暂时不可用，请稍后再试", some url,
          attempts, sleeps, tempFiles, files⟩
      else
        match env.json with
        | Option.none =>
          ⟨Option.none, "抱歉，报时数据格式有误，请稍后再试", some url,
            attempts, sleeps, tempFiles, files⟩
        | some data =>
          if data.code = 200 then
            let textMsg := data.msg.getD "未获取到报时文本"
            let timeStr := data.time.getD "未知时间"
            -- `if not mp3_url`: the key is absent or the URL is empty
            if data.mp3 = Option.none ∨ data.mp3 = some "" then
              ⟨Option.none, voiceFailMsg timeStr textMsg, some url,
                attempts, sleeps, tempFiles, files⟩
            else if ¬ env.mp3Ok then
              ⟨Option.none, voiceFailMsg timeStr textMsg, some url,
                attempts, sleeps, tempFiles, files⟩
            else
              let path := mp3FileName env h
              if env.mp3Size = 0 then
                -- written then removed by the zero-size check
                ⟨Option.none, voiceFailMsg timeStr textMsg, some url,
                  attempts, sleeps, tempFiles, files⟩
              else
                ⟨some path, "整点报时 (" ++ timeStr ++ ")：\n" ++ textMsg,
                  some url, attempts, sleeps, tempFiles ++ [path],
                  files ++ [path]⟩
          else
            ⟨Option.none, "报时获取失败: " ++ data.msg.getD "未知错误",
              some url, attempts, sleeps, tempFiles, files⟩

/-! ## Replies and the command handler `on_handle_context` -/

/-- `bridge.reply.ReplyType`, restricted to the two values the plugin uses. -/
inductive ReplyType where
  | text
  | voice
  deriving DecidableEq, Repr

/-- A `bridge.reply.Reply`. -/
structure Reply where
  type : ReplyType
  content : String
  deriving DecidableEq, Repr

/-- Observable effects of one `on_handle_context` call, in order. -/
inductive Ev where
  /-- `self.save_config()` writing `c` to the config file. -/
  | save (c : Config)
  /-- Setting `e_context["reply"]` (with `BREAK_PASS`). -/
  | reply (r : Reply)
  deriving DecidableEq, Repr

/-- Whether an event is a `save_config` call. -/
def Ev.isSave : Ev → Bool
  | .save _ => true
  | .reply _ => false

/-- Replay a trace against the config file: each `save c` overwrites the
file with `c`, replies leave it alone. -/
def runFile (file : Config) : List Ev → Config
  | [] => file
  | .save c :: rest => runFile c rest
  | .reply _ :: rest => runFile file rest

/-- True when no `save` event occurs after a `reply` event: every config
write precedes the construction of the reply. -/
def noSaveAfterReply : List Ev → Bool
  | [] => true
  | .reply _ :: rest => rest.all (fun e => ¬ e.isSave) && noSaveAfterReply rest
  | .save _ :: rest => noSaveAfterReply rest

/-- `_handle_voice_result` (lines 472-496): on success the reply is the
voice clip alone; otherwise it is the text message. -/
def handleVoiceResult (voicePath : Option String) (textMsg : String) : Reply :=
  match voicePath with
  | some p => ⟨.voice, p⟩
  | Option.none => ⟨.text, textMsg⟩

/-- Python `str.strip()` (ASCII whitespace). -/
def pyStrip (s : String) : String :=
  String.mk (((s.toList.dropWhile isPySpace).reverse.dropWhile isPySpace).reverse)

/-- The regex `^报时\s+(\d+)$`: returns the digit group when the content is
`报时`, one or more whitespace characters, then one or more digits. -/
def matchBaoshi? (content : String) : Option String :=
  let cs := content.toList
  if cs.take 2 = ['报', '时'] then
    let rest := cs.drop 2
    let afterWs := rest.dropWhile isPySpace
    if rest.takeWhile isPySpace = [] then
      Option.none
    else
      let digits := afterWs.takeWhile Char.isDigit
      if digits ≠ [] ∧ afterWs.dropWhile Char.isDigit = [] then
        some (String.mk digits)
      else
        Option.none
  else
    Option.none

/-- The numbered channel list built by the `报时频道列表` branch. -/
def channelLines (channels : List String) : String :=
  String.join (((List.range channels.length).zip channels).map
    (fun p => toString (p.1 + 1) ++ ". " ++ p.2 ++ "\n"))

/-- The reply text of the `报时频道列表` branch (lines 451-470). -/
def channelListText (cfg : Config) : String :=
  let status := if cfg.autoReport.enabled then "✅ 已开启" else "❌ 已关闭"
  if cfg.autoReport.channels = [] then
    "📢 自动整点报时状态: " ++ status ++
      "\n\n未配置任何报时频道，请使用「添加报时频道」命令添加"
  else
    "📢 自动整点报时状态: " ++ status ++ "\n\n已配置 " ++
      toString cfg.autoReport.channels.length ++ " 个报时频道:\n" ++
      channelLines cfg.autoReport.channels

/-- The incoming event context: whether `context.type == ContextType.TEXT`,
the message content, and `context.get("session_id")`. -/
structure Ctx where
  isText : Bool
  content : String
  sessionId : Option String
  deriving DecidableEq, Repr

/-- State and trace after one `on_handle_context` call. -/
structure HandleResult where
  config : Config
  events : List Ev
  tempFiles : List String
  files : List String
  deriving DecidableEq, Repr

/-- `on_handle_context` (lines 326-470).  Branches in source order:
non-text contexts are ignored; `整点报时` and `报时 N` fetch and reply via
`_handle_voice_result`; the four management commands mutate the config and
save it before building their reply; `报时频道列表` only replies. -/
def handleContext (cfg : Config) (env : Env) (tempFiles files : List String)
    (ctx : Ctx) : HandleResult :=
  if ¬ ctx.isText then
    ⟨cfg, [], tempFiles, files⟩
  else
    let content := pyStrip ctx.content
    if content = "整点报时" then
      let r := getHourVoice cfg env tempFiles files .none
      ⟨cfg, [.reply (handleVoiceResult r.voicePath r.textMsg)],
        r.tempFiles, r.files⟩
    else
      match matchBaoshi? content with
      | some hourStr =>
        let r := getHourVoice cfg env tempFiles files (.str hourStr)
        ⟨cfg, [.reply (handleVoiceResult r.voicePath r.textMsg)],
          r.tempFiles, r.files⟩
      | Option.none =>
        if content = "开启自动报时" then
          let cfg' := { cfg with autoReport := { cfg.autoReport with enabled := true } }
          ⟨cfg', [.save cfg', .reply ⟨.text, "✅ 自动整点报时已开启"⟩],
            tempFiles, files⟩
        else if content = "关闭自动报时" then
          let cfg' := { cfg with autoReport := { cfg.autoReport with enabled := false } }
          ⟨cfg', [.save cfg', .reply ⟨.text, "❌ 自动整点报时已关闭"⟩],
            tempFiles, files⟩
        else if content = "添加报时频道" then
          match ctx.sessionId with
          | Option.none =>
            ⟨cfg, [.reply ⟨.text, "❌ 无法获取当前会话ID"⟩], tempFiles, files⟩
          | some sid =>
            if sid = "" then
              ⟨cfg, [.reply ⟨.text, "❌ 无法获取当前会话ID"⟩], tempFiles, files⟩
            else if sid ∈ cfg.autoReport.channels then
              ⟨cfg, [.reply ⟨.text, "❌ 当前频道已在报时列表中"⟩],
                tempFiles, files⟩
            else
              let channels := cfg.autoReport.channels ++ [sid]
              let cfg' := { cfg with autoReport := { cfg.autoReport with channels := channels } }
              ⟨cfg', [.save cfg',
                  .reply ⟨.text, "✅ 已将当前频道添加到报时列表\n当前报时频道数: " ++
                    toString channels.length⟩], tempFiles, files⟩
        else if content = "删除报时频道" then
          match ctx.sessionId with
          | Option.none =>
            ⟨cfg, [.reply ⟨.text, "❌ 无法获取当前会话ID"⟩], tempFiles, files⟩
          | some sid =>
            if sid = "" then
              ⟨cfg, [.reply ⟨.text, "❌ 无法获取当前会话ID"⟩], tempFiles, files⟩
            else if sid ∉ cfg.autoReport.channels then
              ⟨cfg, [.reply ⟨.text, "❌ 当前频道不在报时列表中"⟩],
                tempFiles, files⟩
            else
              let channels := cfg.autoReport.channels.erase sid
              let cfg' := { cfg with autoReport := { cfg.autoReport with channels := channels } }
              ⟨cfg', [.save cfg',
                  .reply ⟨.text, "✅ 已将当前频道从报时列表中移除\n当前报时频道数: " ++
                    toString channels.length⟩], tempFiles, files⟩
        else if content = "报时频道列表" then
          ⟨cfg, [.reply ⟨.text, channelListText cfg⟩], tempFiles, files⟩
        else
          ⟨cfg, [], tempFiles, files⟩

/-! ## The auto-report timer loop `auto_report_task` -/

/-- Microseconds per hour.  Naive `datetime` values are modelled as a count
of microseconds, so clock-hour boundaries are exactly the multiples of this
constant. -/
def usecPerHour : Nat := 3600 * 1000000

/-- `now.replace(minute=0, second=0, microsecond=0)`: the start of the hour
containing `t`. -/
def floorHour (t : Nat) : Nat := t / usecPerHour * usecPerHour

/-- Lines 131-133 (and 179-181): the next hour boundary computed from the
current time, `now.replace(minute=0, second=0, microsecond=0) +
timedelta(hours=1)`. -/
def nextHourOf (t : Nat) : Nat := floorHour t + usecPerHour

/-- Line 172: after an announcement, `next_hour = next_hour +
timedelta(hours=1)`. -/
def hourAdvance (next_hour : Nat) : Nat := next_hour + usecPerHour

/-- The waiting loop of `auto_report_task` (lines 146-154), started at
check index `k`: on each iteration the stop flag is consulted first; then
`time.sleep(min(10, wait_seconds))`; then `wait_seconds -= 10`, breaking
once it is non-positive.  Returns the list of sleep durations performed.
`fuel` is the remaining iteration count `wait_count`. -/
def waitLoopAux (stop : Nat → Bool) : Nat → Nat → ℚ → List ℚ
  | 0, _, _ => []
  | fuel + 1, k, ws =>
    if stop k then
      []
    else
      let s := min 10 ws
      if ws - 10 ≤ 0 then
        [s]
      else
        s :: waitLoopAux stop fuel (k + 1) (ws - 10)

/-- The waiting loop with its iteration bound `wait_count =
int(wait_seconds / 10) + 1`. -/
def waitLoop (stop : Nat → Bool) (waitSeconds : ℚ) : List ℚ :=
  waitLoopAux stop ((waitSeconds / 10).floor.toNat + 1) 0 waitSeconds

/-! ## Fan-out to channels: `send_to_channels` -/

/-- Observable events of the channel fan-out.  `errorLogged` records the
`except` branch of `send_text_to_channel` / `send_voice_to_channel`
swallowing an exception raised by the bot. -/
inductive SendEv where
  | text (ch msg : String)
  | voice (ch path : String)
  | errorLogged (ch : String)
  deriving DecidableEq, Repr

/-- `send_text_to_channel` (lines 208-215): attempts the send; any
exception from `self.bot.send_message` is caught and logged, never
propagated.  `textRaises ch` says whether the bot raises for `ch`. -/
def sendTextToChannel (textRaises : String → Bool) (ch msg : String) :
    List SendEv :=
  SendEv.text ch msg :: (if textRaises ch then [SendEv.errorLogged ch] else [])

/-- `send_voice_to_channel` (lines 217-224), likewise. -/
def sendVoiceToChannel (voiceRaises : String → Bool) (ch path : String) :
    List SendEv :=
  SendEv.voice ch path :: (if voiceRaises ch then [SendEv.errorLogged ch] else [])

/-- `send_to_channels` (lines 185-206): for each channel, in list order,
send the text, then — when a voice path is present — the voice.  The outer
`try` per channel cannot fire because both helpers swallow exceptions. -/
def sendToChannels (textRaises voiceRaises : String → Bool)
    (channels : List String) (voicePath : Option String) (msg : String) :
    List SendEv :=
  match channels with
  | [] => []
  | ch :: rest =>
    sendTextToChannel textRaises ch msg ++
      (match voicePath with
       | some p => sendVoiceToChannel voiceRaises ch p
       | Option.none => []) ++
      sendToChannels textRaises voiceRaises rest voicePath msg

/-- The channel of a text-send attempt, for order statements. -/
def SendEv.textCh? : SendEv → Option String
  | .text ch _ => some ch
  | _ => Option.none

/-- The channel of a voice-send attempt. -/
def SendEv.voiceCh? : SendEv → Option String
  | .voice ch _ => some ch
  | _ => Option.none

/-! ## Temp-file cleanup: `cleanup` -/

/-- The deletion loop of `cleanup` (lines 530-536): for each tracked path,
if it exists, attempt `os.remove`; a failing removal (`removeFails p`) is
caught and logged and the loop continues.  Returns the filesystem after
the loop and the list of paths whose deletion was attempted. -/
def cleanupLoop (removeFails : String → Bool) :
    List String → List String → List String × List String
  | [], fs => (fs, [])
  | p :: rest, fs =>
    if p ∈ fs then
      let fs' := if removeFails p then fs else fs.erase p
      let r := cleanupLoop removeFails rest fs'
      (r.1, p :: r.2)
    else
      cleanupLoop removeFails rest fs

/-- `cleanup` (lines 521-539), filesystem part: run the deletion loop over
`temp_files`, then `self.temp_files.clear()`.  Returns the filesystem
after, the `temp_files` list after, and the attempted deletions. -/
def cleanupRun (removeFails : String → Bool) (tempFiles fs : List String) :
    List String × List String × List String :=
  let r := cleanupLoop removeFails tempFiles fs
  (r.1, [], r.2)

/-! ## Concrete environments for evaluating the model -/

/-- Whether `hay` starts with `needle`. -/
def listStartsWith (needle hay : List Char) : Bool :=
  needle == hay.take needle.length

/-- Whether `needle` occurs as a contiguous segment of the second list. -/
def listContainsSeg (needle : List Char) : List Char → Bool
  | [] => needle == []
  | c :: rest => listStartsWith needle (c :: rest) || listContainsSeg needle rest

/-- Whether some reply in the trace carries the text `txt`, either as its
whole content or as a substring.  This formalises the spec's phrase "the
reply contains the fetched announcement text". -/
def replyMentions (evs : List Ev) (txt : String) : Bool :=
  evs.any fun e =>
    match e with
    | .reply r => r.content == txt || listContainsSeg txt.toList r.content.toList
    | .save _ => false

/-- An environment in which every external step succeeds. -/
def envSuccess : Env :=
  { httpOk := fun _ => true
    json := some { code := 200, mp3 := some "http://example.com/12.mp3",
                   msg := some "现在是北京时间12点整！", time := some "12:00" }
    mp3Ok := true
    mp3Size := 1024
    nowHour := 12
    tmpDir := "tmp"
    timestamp := 1700000000
    randomStr := "abcdef" }

/-- An environment in which every HTTP attempt raises. -/
def envAllFail : Env :=
  { httpOk := fun _ => false
    json := Option.none
    mp3Ok := false
    mp3Size := 0
    nowHour := 12
    tmpDir := "tmp"
    timestamp := 1700000000
    randomStr := "abcdef" }

/-- The path `getHourVoice` saves to in `envSuccess` for hour 12. -/
def successPath : String := "tmp/hourly_voice_12_1700000000_abcdef.mp3"

/-- The announcement text fetched in `envSuccess`. -/
def successMsg : String := "整点报时 (12:00)：\n现在是北京时间12点整！"

/-! ## Theorems -/

/-- Every sleep in the waiting loop is `min 10 ws` for the current `ws`,
hence at most 10 seconds. -/
theorem waitLoopAux_mem_le (stop : Nat → Bool) :
    ∀ (fuel k : Nat) (ws s : ℚ), s ∈ waitLoopAux stop fuel k ws → s ≤ 10 := by
  intro fuel
  induction fuel with
  | zero => intro k ws s h; simp [waitLoopAux] at h
  | succ n ih =>
    intro k ws s h
    unfold waitLoopAux at h
    by_cases hs : stop k
    · simp [hs] at h
    · simp only [hs, if_false] at h
      by_cases hw : ws - 10 ≤ 0
      · simp [hw] at h
        simp [h, min_le_left]
      · simp [hw] at h
        rcases h with h | h
        · simp [h, min_le_left]
        · exact ih (k + 1) (ws - 10) s h

/-- If the stop flag is set at check index `k0 + j`, the loop performs at
most `j` further sleeps: the flag is consulted before every sleep. -/
theorem waitLoopAux_stop_len (stop : Nat → Bool) :
    ∀ (fuel k0 : Nat) (ws : ℚ) (j : Nat), stop (k0 + j) = true →
      (waitLoopAux stop fuel k0 ws).length ≤ j := by
  intro fuel
  induction fuel with
  | zero => intro k0 ws j _; simp [waitLoopAux]
  | succ n ih =>
    intro k0 ws j hstop
    unfold waitLoopAux
    by_cases hs : stop k0
    · simp [hs]
    · cases j with
      | zero =>
        rw [Nat.add_zero] at hstop
        exact absurd hstop (by simp [hs])
      | succ j' =>
        simp only [hs, if_false]
        by_cases hw : ws - 10 ≤ 0
        · simp [hw]
        · simp only [hw, if_false, List.length_cons]
          have : stop ((k0 + 1) + j') = true := by
            rw [show (k0 + 1) + j' = k0 + (j' + 1) by omega]; exact hstop
          exact Nat.succ_le_succ (ih (k0 + 1) (ws - 10) j' this)

/-- C5: the background loop computes the next hour boundary correctly:
`nextHourOf t` lies exactly on an hour boundary, is strictly later than
`t`, and is the least hour boundary strictly after `t`; after an
announcement `hourAdvance` moves `next_hour` forward by exactly one hour,
staying on hour boundaries. -/
theorem next_hour_boundary_correct (t : Nat) :
    nextHourOf t % usecPerHour = 0 ∧ t < nextHourOf t ∧
      (∀ u : Nat, u % usecPerHour = 0 → t < u → nextHourOf t ≤ u) ∧
      (∀ n : Nat, hourAdvance n = n + usecPerHour ∧
        (n % usecPerHour = 0 → hourAdvance n % usecPerHour = 0)) := by
  have hH : 0 < usecPerHour := by decide
  have hEq : nextHourOf t = (t / usecPerHour + 1) * usecPerHour := by
    simp [nextHourOf, floorHour, Nat.succ_mul]
  have hmod : t % usecPerHour + t / usecPerHour * usecPerHour = t :=
    Nat.mod_add_div' t usecPerHour
  have hlt : t % usecPerHour < usecPerHour := Nat.mod_lt t hH
  refine ⟨?_, ?_, ?_, ?_⟩
  · rw [hEq]; exact Nat.mul_mod_left _ _
  · rw [hEq, Nat.succ_mul]; omega
  · intro u hu htu
    have hdvd : usecPerHour ∣ u := Nat.dvd_of_mod_eq_zero hu
    have huEq : u / usecPerHour * usecPerHour = u := Nat.div_mul_cancel hdvd
    have hq : t / usecPerHour < u / usecPerHour := by
      by_contra hc
      push_neg at hc
      have := Nat.mul_le_mul_right usecPerHour hc
      omega
    have hq' : t / usecPerHour + 1 ≤ u / usecPerHour := hq
    have := Nat.mul_le_mul_right usecPerHour hq'
    omega
  · intro n
    refine ⟨rfl, fun h => ?_⟩
    simp [hourAdvance, Nat.add_mod, h]

/-- Witness for C5 at `t = 1`, `u = usecPerHour`, `n = usecPerHour`. -/
theorem next_hour_boundary_correct_witness :
    (usecPerHour % usecPerHour = 0 ∧ (1 : Nat) < usecPerHour) ∧
      nextHourOf 1 ≤ usecPerHour ∧
      hourAdvance usecPerHour % usecPerHour = 0 :=
  ⟨⟨by decide, by decide⟩,
    (next_hour_boundary_correct 1).2.2.1 usecPerHour (by decide) (by decide),
    ((next_hour_boundary_correct 1).2.2.2 usecPerHour).2 (by decide)⟩

/-- C6: within the waiting loop of `auto_report_task` no single sleep
exceeds 10 seconds, and since the stop flag is consulted before every
sleep, a stop request visible at check index `k` bounds the number of
sleeps performed by `k`. -/
theorem wait_loop_bounded_sleeps (stop : Nat → Bool) (waitSeconds : ℚ) :
    (∀ s ∈ waitLoop stop waitSeconds, s ≤ 10) ∧
      (∀ k : Nat, stop k = true → (waitLoop stop waitSeconds).length ≤ k) := by
  constructor
  · intro s hs
    exact waitLoopAux_mem_le stop _ 0 waitSeconds s hs
  · intro k hk
    exact waitLoopAux_stop_len stop _ 0 waitSeconds k (by simpa using hk)

/-- Witness for C6: a 25-second wait with the stop flag raised from check
index 2 on performs at most 2 sleeps, each at most 10 seconds. -/
theorem wait_loop_bounded_sleeps_witness :
    ((fun k => decide (2 ≤ k)) 2 = true) ∧
      (∀ s ∈ waitLoop (fun k => decide (2 ≤ k)) 25, s ≤ 10) ∧
      (waitLoop (fun k => decide (2 ≤ k)) 25).length ≤ 2 :=
  ⟨by decide,
    (wait_loop_bounded_sleeps (fun k => decide (2 ≤ k)) 25).1,
    (wait_loop_bounded_sleeps (fun k => decide (2 ≤ k)) 25).2 2 (by decide)⟩

theorem sendText_textCh (tr : String → Bool) (ch msg : String) :
    (sendTextToChannel tr ch msg).filterMap SendEv.textCh? = [ch] := by
  by_cases h : tr ch <;> simp [sendTextToChannel, h, SendEv.textCh?]

theorem sendText_voiceCh (tr : String → Bool) (ch msg : String) :
    (sendTextToChannel tr ch msg).filterMap SendEv.voiceCh? = [] := by
  by_cases h : tr ch <;> simp [sendTextToChannel, h, SendEv.voiceCh?]

theorem sendVoice_textCh (vr : String → Bool) (ch p : String) :
    (sendVoiceToChannel vr ch p).filterMap SendEv.textCh? = [] := by
  by_cases h : vr ch <;> simp [sendVoiceToChannel, h, SendEv.textCh?]

theorem sendVoice_voiceCh (vr : String → Bool) (ch p : String) :
    (sendVoiceToChannel vr ch p).filterMap SendEv.voiceCh? = [ch] := by
  by_cases h : vr ch <;> simp [sendVoiceToChannel, h, SendEv.voiceCh?]

/-- C7: `send_to_channels` attempts a text send to each channel in list
order; when a voice path is present it also attempts a voice send to each
channel in list order; and this holds for every pattern of exceptions
raised by the bot (`textRaises`, `voiceRaises`), so a failure at one
channel never prevents the sends to the remaining channels. -/
theorem fanout_reaches_every_channel (textRaises voiceRaises : String → Bool)
    (channels : List String) (voicePath : Option String) (msg : String) :
    ((sendToChannels textRaises voiceRaises channels voicePath msg).filterMap
        SendEv.textCh? = channels) ∧
      (∀ p, voicePath = some p →
        (sendToChannels textRaises voiceRaises channels voicePath msg).filterMap
          SendEv.voiceCh? = channels) ∧
      (voicePath = Option.none →
        (sendToChannels textRaises voiceRaises channels voicePath msg).filterMap
          SendEv.voiceCh? = []) := by
  induction channels with
  | nil => simp [sendToChannels]
  | cons ch rest ih =>
    refine ⟨?_, ?_, ?_⟩
    · cases voicePath with
      | none =>
        simp [sendToChannels, List.filterMap_append, sendText_textCh, ih.1]
      | some p =>
        simp [sendToChannels, List.filterMap_append, sendText_textCh,
          sendVoice_textCh, ih.1]
    · intro p hp
      subst hp
      simp [sendToChannels, List.filterMap_append, sendText_voiceCh,
        sendVoice_voiceCh, ih.2.1 p rfl]
    · intro hp
      subst hp
      simp [sendToChannels, List.filterMap_append, sendText_voiceCh,
        ih.2.2 rfl]

/-- Witness for C7: two channels, text send to the first raising, voice
present — every channel still receives both attempts in order. -/
theorem fanout_reaches_every_channel_witness :
    ((Option.some "v.mp3" : Option String) = some "v.mp3") ∧
      ((sendToChannels (fun ch => ch == "a") (fun _ => false) ["a", "b"]
          (some "v.mp3") "hi").filterMap SendEv.textCh? = ["a", "b"]) ∧
      ((sendToChannels (fun ch => ch == "a") (fun _ => false) ["a", "b"]
          (some "v.mp3") "hi").filterMap SendEv.voiceCh? = ["a", "b"]) :=
  ⟨rfl,
    (fanout_reaches_every_channel (fun ch => ch == "a") (fun _ => false)
      ["a", "b"] (some "v.mp3") "hi").1,
    (fanout_reaches_every_channel (fun ch => ch == "a") (fun _ => false)
      ["a", "b"] (some "v.mp3") "hi").2.1 "v.mp3" rfl⟩

/-- Complete case analysis of `getHourVoice`: exactly one of the nine
control-flow branches of the Python function applies, and each determines
the full return value and effect trace. -/
theorem getHourVoice_cases (cfg : Config) (env : Env)
    (t f : List String) (i : HourInput) :
    (∃ m, resolveHour env.nowHour i = .error m ∧
      getHourVoice cfg env t f i = ⟨Option.none, m, Option.none, 0, [], t, f⟩) ∨
    (∃ h, resolveHour env.nowHour i = .ok h ∧ (h < 1 ∨ 24 < h) ∧
      getHourVoice cfg env t f i =
        ⟨Option.none, "小时必须在1到24之间，您输入的是" ++ toString h,
          Option.none, 0, [], t, f⟩) ∨
    (∃ h, resolveHour env.nowHour i = .ok h ∧ ¬(h < 1 ∨ 24 < h) ∧
      (let url := cfg.apiUrl ++ "?h=" ++ toString h
       let r := retryLoop env.httpOk 3 0
       (r.1 = false ∧
         getHourVoice cfg env t f i =
           ⟨Option.none, "抱歉，报时服务暂时不可用，请稍后再试", some url,
             r.2.1, r.2.2, t, f⟩) ∨
       (r.1 = true ∧ env.json = Option.none ∧
         getHourVoice cfg env t f i =
           ⟨Option.none, "抱歉，报时数据格式有误，请稍后再试", some url,
             r.2.1, r.2.2, t, f⟩) ∨
       (∃ data, r.1 = true ∧ env.json = some data ∧ data.code ≠ 200 ∧
         getHourVoice cfg env t f i =
           ⟨Option.none, "报时获取失败: " ++ data.msg.getD "未知错误", some url,
             r.2.1, r.2.2, t, f⟩) ∨
       (∃ data, r.1 = true ∧ env.json = some data ∧ data.code = 200 ∧
         (let textMsg := data.msg.getD "未获取到报时文本"
          let timeStr := data.time.getD "未知时间"
          ((data.mp3 = Option.none ∨ data.mp3 = some "") ∧
            getHourVoice cfg env t f i =
              ⟨Option.none, voiceFailMsg timeStr textMsg, some url,
                r.2.1, r.2.2, t, f⟩) ∨
          (¬(data.mp3 = Option.none ∨ data.mp3 = some "") ∧ env.mp3Ok = false ∧
            getHourVoice cfg env t f i =
              ⟨Option.none, voiceFailMsg timeStr textMsg, some url,
                r.2.1, r.2.2, t, f⟩) ∨
          (¬(data.mp3 = Option.none ∨ data.mp3 = some "") ∧ env.mp3Ok = true ∧
            env.mp3Size = 0 ∧
            getHourVoice cfg env t f i =
              ⟨Option.none, voiceFailMsg timeStr textMsg, some url,
                r.2.1, r.2.2, t, f⟩) ∨
          (¬(data.mp3 = Option.none ∨ data.mp3 = some "") ∧ env.mp3Ok = true ∧
            env.mp3Size ≠ 0 ∧
            getHourVoice cfg env t f i =
              ⟨some (mp3FileName env h),
                "整点报时 (" ++ timeStr ++ ")：\n" ++ textMsg, some url,
                r.2.1, r.2.2, t ++ [mp3FileName env h],
                f ++ [mp3FileName env h]⟩))))) := by
  rcases hres : resolveHour env.nowHour i with m | h
  · exact Or.inl ⟨m, rfl, by simp [getHourVoice, hres]⟩
  · by_cases h1 : h < 1 ∨ 24 < h
    · exact Or.inr (Or.inl ⟨h, rfl, h1, by simp [getHourVoice, hres, h1]⟩)
    · refine Or.inr (Or.inr ⟨h, rfl, h1, ?_⟩)
      dsimp only
      by_cases h2 : (retryLoop env.httpOk 3 0).1
      · rcases hjson : env.json with _ | data
        · exact Or.inr (Or.inl ⟨h2, rfl,
            by simp [getHourVoice, hres, h1, h2, hjson]⟩)
        · by_cases h3 : data.code = 200
          · refine Or.inr (Or.inr (Or.inr ⟨data, h2, rfl, h3, ?_⟩))
            dsimp only
            by_cases h4 : data.mp3 = Option.none ∨ data.mp3 = some ""
            · exact Or.inl ⟨h4,
                by simp [getHourVoice, hres, h1, h2, hjson, h3, h4]⟩
            · by_cases h5 : env.mp3Ok
              · by_cases h6 : env.mp3Size = 0
                · exact Or.inr (Or.inr (Or.inl ⟨h4, h5, h6,
                    by simp [getHourVoice, hres, h1, h2, hjson, h3, h4, h5, h6]⟩))
                · exact Or.inr (Or.inr (Or.inr ⟨h4, h5, h6,
                    by simp [getHourVoice, hres, h1, h2, hjson, h3, h4, h5, h6]⟩))
              · exact Or.inr (Or.inl ⟨h4, by simpa using h5,
                  by simp [getHourVoice, hres, h1, h2, hjson, h3, h4, h5]⟩)
          · exact Or.inr (Or.inr (Or.inl ⟨data, h2, rfl, h3,
              by simp [getHourVoice, hres, h1, h2, hjson, h3]⟩))
      · exact Or.inl ⟨by simpa using h2,
          by simp [getHourVoice, hres, h1, h2]⟩

/-- The retry loop issues at most as many requests as it has iterations. -/
theorem retryLoop_attempts_le (httpOk : Nat → Bool) :
    ∀ left retry, (retryLoop httpOk left retry).2.1 ≤ left := by
  intro left
  induction left with
  | zero => intro retry; simp [retryLoop]
  | succ n ih =>
    intro retry
    unfold retryLoop
    by_cases h : httpOk retry
    · simp [h]
    · by_cases hn : n = 0
      · simp [h, hn]
      · simpa [h, hn] using Nat.succ_le_succ (ih (retry + 1))

/-- Every sleep the retry loop performs lasts exactly one second. -/
theorem retryLoop_sleeps_one (httpOk : Nat → Bool) :
    ∀ left retry s, s ∈ (retryLoop httpOk left retry).2.2 → s = 1 := by
  intro left
  induction left with
  | zero => intro retry s hs; simp [retryLoop] at hs
  | succ n ih =>
    intro retry s hs
    unfold retryLoop at hs
    by_cases h : httpOk retry
    · simp [h] at hs
    · by_cases hn : n = 0
      · simp [h, hn] at hs
      · simp only [h, hn, if_false, if_neg, Bool.false_eq_true] at hs
        simp at hs
        rcases hs with hs | hs
        · exact hs
        · exact ih (retry + 1) s hs

/-- When all three attempts fail, the loop makes exactly three requests,
sleeping one second after each of the first two failures. -/
theorem retryLoop_all_fail (httpOk : Nat → Bool)
    (h0 : httpOk 0 = false) (h1 : httpOk 1 = false) (h2 : httpOk 2 = false) :
    retryLoop httpOk 3 0 = (false, 3, [1, 1]) := by
  simp [retryLoop, h0, h1, h2]

/-- C1: `get_hour_voice` makes at most three HTTP attempts, every sleep
between failed attempts lasts one second, and when every attempt raises a
request exception (and the hour passed validation, so that the request
stage is reached) it returns `(None, the service-unavailable text)` after
exactly three attempts and two one-second sleeps. -/
theorem retry_at_most_three (cfg : Config) (env : Env)
    (t f : List String) (i : HourInput) :
    (getHourVoice cfg env t f i).apiAttempts ≤ 3 ∧
      (∀ s ∈ (getHourVoice cfg env t f i).retrySleeps, s = 1) ∧
      ((∀ n, n < 3 → env.httpOk n = false) →
        ∀ h, resolveHour env.nowHour i = .ok h → ¬(h < 1 ∨ 24 < h) →
          (getHourVoice cfg env t f i).voicePath = Option.none ∧
          (getHourVoice cfg env t f i).textMsg =
            "抱歉，报时服务暂时不可用，请稍后再试" ∧
          (getHourVoice cfg env t f i).apiAttempts = 3 ∧
          (getHourVoice cfg env t f i).retrySleeps = [1, 1]) := by
  have hle := retryLoop_attempts_le env.httpOk 3 0
  have hone := retryLoop_sleeps_one env.httpOk 3 0
  rcases getHourVoice_cases cfg env t f i with
    ⟨m, hres, heq⟩ | ⟨h, hres, hrange, heq⟩ | ⟨h, hres, hrange, hrest⟩
  · refine ⟨by simp [heq], by simp [heq], ?_⟩
    intro _ h' hres' _
    rw [hres] at hres'
    exact absurd hres' (by simp)
  · refine ⟨by simp [heq], by simp [heq], ?_⟩
    intro _ h' hres' hrange'
    rw [hres] at hres'
    cases hres'
    exact absurd hrange hrange'
  · have hfail : (∀ n, n < 3 → env.httpOk n = false) →
        retryLoop env.httpOk 3 0 = (false, 3, [1, 1]) := fun hall =>
      retryLoop_all_fail env.httpOk (hall 0 (by omega)) (hall 1 (by omega))
        (hall 2 (by omega))
    rcases hrest with ⟨hr, heq⟩ | ⟨hr, _, heq⟩ | ⟨data, hr, _, _, heq⟩ |
      ⟨data, hr, hjson, hcode, hrest'⟩
    · refine ⟨by simp [heq, hle], by simpa [heq] using hone, ?_⟩
      intro hall h' hres' _
      rw [hres] at hres'
      cases hres'
      rw [heq]
      simp [hfail hall]
    · refine ⟨by simp [heq, hle], by simpa [heq] using hone, ?_⟩
      intro hall _ _ _
      rw [hfail hall] at hr
      simp at hr
    · refine ⟨by simp [heq, hle], by simpa [heq] using hone, ?_⟩
      intro hall _ _ _
      rw [hfail hall] at hr
      simp at hr
    · dsimp only at hrest'
      have hcontr : (∀ n, n < 3 → env.httpOk n = false) → False := by
        intro hall
        rw [hfail hall] at hr
        simp at hr
      rcases hrest' with ⟨_, heq⟩ | ⟨_, _, heq⟩ | ⟨_, _, _, heq⟩ | ⟨_, _, _, heq⟩ <;>
        exact ⟨by simp [heq, hle], by simpa [heq] using hone,
          fun hall _ _ _ => absurd hall (fun hall' => hcontr hall')⟩

/-- Witness for C1 in the all-fail environment at hour 12. -/
theorem retry_at_most_three_witness :
    ((∀ n, n < 3 → envAllFail.httpOk n = false) ∧
        resolveHour envAllFail.nowHour (.int 12) = .ok 12 ∧
        ¬((12 : Int) < 1 ∨ 24 < (12 : Int))) ∧
      (getHourVoice defaultConfig envAllFail [] [] (.int 12)).voicePath =
        Option.none ∧
      (getHourVoice defaultConfig envAllFail [] [] (.int 12)).textMsg =
        "抱歉，报时服务暂时不可用，请稍后再试" ∧
      (getHourVoice defaultConfig envAllFail [] [] (.int 12)).apiAttempts = 3 ∧
      (getHourVoice defaultConfig envAllFail [] [] (.int 12)).retrySleeps =
        [1, 1] :=
  ⟨⟨fun _ _ => rfl, rfl, by decide⟩,
    (retry_at_most_three defaultConfig envAllFail [] [] (.int 12)).2.2
      (fun _ _ => rfl) 12 rfl (by decide)⟩

/-- C9: `get_hour_voice` is total at its interface (the model returns a
`FetchResult` pair for every input by construction; the Python body is one
`try/except Exception` returning an error pair), and the first component
is a file path exactly when the hour validates and the API call, JSON
decode, `code == 200` check, MP3-URL presence, MP3 download and
non-empty-file check all succeed; it is `None` in every failure branch. -/
theorem voice_path_iff_all_steps (cfg : Config) (env : Env)
    (t f : List String) (i : HourInput) :
    (getHourVoice cfg env t f i).voicePath ≠ Option.none ↔
      ((∃ h, resolveHour env.nowHour i = .ok h ∧ 1 ≤ h ∧ h ≤ 24) ∧
        (retryLoop env.httpOk 3 0).1 = true ∧
        (∃ data u, env.json = some data ∧ data.code = 200 ∧
          data.mp3 = some u ∧ u ≠ "") ∧
        env.mp3Ok = true ∧ env.mp3Size ≠ 0) := by
  constructor
  · intro hne
    rcases getHourVoice_cases cfg env t f i with
      ⟨m, hres, heq⟩ | ⟨h, hres, hrange, heq⟩ | ⟨h, hres, hrange, hrest⟩
    · exact absurd (by simp [heq]) hne
    · exact absurd (by simp [heq]) hne
    · rcases hrest with ⟨_, heq⟩ | ⟨_, _, heq⟩ | ⟨data, _, _, _, heq⟩ |
        ⟨data, hr, hjson, hcode, hrest'⟩
      · exact absurd (by simp [heq]) hne
      · exact absurd (by simp [heq]) hne
      · exact absurd (by simp [heq]) hne
      · rcases hrest' with ⟨_, heq⟩ | ⟨_, _, heq⟩ | ⟨_, _, _, heq⟩ |
          ⟨hmp3, hok, hsize, heq⟩
        · exact absurd (by simp [heq]) hne
        · exact absurd (by simp [heq]) hne
        · exact absurd (by simp [heq]) hne
        · push_neg at hmp3
          rcases hu : data.mp3 with _ | u
          · exact absurd hu hmp3.1
          · exact ⟨⟨h, hres, by omega, by omega⟩, hr,
              ⟨data, u, hjson, hcode, hu, by
                intro hu'
                exact hmp3.2 (by rw [hu, hu'])⟩, hok, hsize⟩
  · rintro ⟨⟨h, hres, hlo, hhi⟩, hr, ⟨data, u, hjson, hcode, hmp3, hune⟩,
      hok, hsize⟩
    rcases getHourVoice_cases cfg env t f i with
      ⟨m, hres', heq⟩ | ⟨h', hres', hrange, heq⟩ | ⟨h', hres', hrange, hrest⟩
    · rw [hres] at hres'; exact absurd hres' (by simp)
    · rw [hres] at hres'; cases hres'; omega
    · rcases hrest with ⟨hr', heq⟩ | ⟨_, hjson', heq⟩ | ⟨data', _, hjson', hcode', heq⟩ |
        ⟨data', _, hjson', hcode', hrest'⟩
      · rw [hr] at hr'; cases hr'
      · rw [hjson] at hjson'; exact absurd hjson' (by simp)
      · rw [hjson] at hjson'
        cases hjson'
        exact absurd hcode hcode'
      · rw [hjson] at hjson'
        cases hjson'
        rcases hrest' with ⟨hmp3', heq⟩ | ⟨_, hok', heq⟩ | ⟨_, _, hsize', heq⟩ |
          ⟨_, _, _, heq⟩
        · rcases hmp3' with hmp3' | hmp3'
          · rw [hmp3] at hmp3'; exact absurd hmp3' (by simp)
          · rw [hmp3] at hmp3'
            cases hmp3'
            exact absurd rfl hune
        · rw [hok] at hok'; cases hok'
        · exact absurd hsize' hsize
        · simp [heq]

/-- Witness for C9 in the all-success environment at hour 12. -/
theorem voice_path_iff_all_steps_witness :
    (getHourVoice defaultConfig envSuccess [] [] (.int 12)).voicePath ≠
      Option.none :=
  (voice_path_iff_all_steps defaultConfig envSuccess [] [] (.int 12)).2
    ⟨⟨12, rfl, by decide, by decide⟩, rfl,
      ⟨{ code := 200, mp3 := some "http://example.com/12.mp3",
         msg := some "现在是北京时间12点整！", time := some "12:00" },
        "http://example.com/12.mp3", rfl, rfl, rfl, by decide⟩, rfl, by decide⟩

/-- C10: `get_hour_voice` rejects every hour outside `1..24` and every
non-integer string before contacting the API (no request URL is built, no
attempt is made); in particular hour `0` is rejected, which is what the
`hour=None` path produces during the midnight hour since it substitutes
`datetime.now().hour`. -/
theorem hour_range_validated (cfg : Config) (env : Env) (t f : List String) :
    (∀ n : Int, (n < 1 ∨ 24 < n) →
      getHourVoice cfg env t f (.int n) =
        ⟨Option.none, "小时必须在1到24之间，您输入的是" ++ toString n,
          Option.none, 0, [], t, f⟩) ∧
    (∀ s, pythonInt? s = Option.none →
      getHourVoice cfg env t f (.str s) =
        ⟨Option.none, "无效的小时格式: " ++ s, Option.none, 0, [], t, f⟩) ∧
    (∀ s n, pythonInt? s = some n → (n < 1 ∨ 24 < n) →
      getHourVoice cfg env t f (.str s) =
        ⟨Option.none, "小时必须在1到24之间，您输入的是" ++ toString n,
          Option.none, 0, [], t, f⟩) ∧
    (env.nowHour = 0 →
      getHourVoice cfg env t f .none =
        ⟨Option.none, "小时必须在1到24之间，您输入的是" ++ toString (0 : Int),
          Option.none, 0, [], t, f⟩) := by
  refine ⟨?_, ?_, ?_, ?_⟩
  · intro n hn
    simp [getHourVoice, resolveHour, hn]
  · intro s hs
    simp [getHourVoice, resolveHour, hs]
  · intro s n hs hn
    simp [getHourVoice, resolveHour, hs, hn]
  · intro h0
    have : resolveHour env.nowHour .none = .ok 0 := by
      simp [resolveHour, h0]
    simp [getHourVoice, this]

/-- Witness for C10: hour 0 (integer and via the midnight `None` path),
hour 25, and the non-numeric string `"abc"` are all rejected without any
HTTP attempt. -/
theorem hour_range_validated_witness :
    (getHourVoice defaultConfig envAllFail [] [] (.int 0)).apiAttempts = 0 ∧
      (getHourVoice defaultConfig envAllFail [] [] (.int 0)).textMsg =
        "小时必须在1到24之间，您输入的是" ++ toString (0 : Int) ∧
      (getHourVoice defaultConfig envAllFail [] [] (.str "abc")).textMsg =
        "无效的小时格式: " ++ "abc" ∧
      (getHourVoice defaultConfig envAllFail [] [] (.str "25")).textMsg =
        "小时必须在1到24之间，您输入的是" ++ toString (25 : Int) := by
  have h1 := (hour_range_validated defaultConfig envAllFail [] []).1 0
    (by decide)
  have h2 := (hour_range_validated defaultConfig envAllFail [] []).2.1 "abc"
    (by decide)
  have h3 := (hour_range_validated defaultConfig envAllFail [] []).2.2.1 "25"
    25 (by decide) (by decide)
  exact ⟨by rw [h1], by rw [h1], by rw [h2], by rw [h3]⟩

/-- For every path in `temp_files` that exists on disk, the cleanup loop
attempts its deletion. -/
theorem cleanupLoop_attempts (removeFails : String → Bool) :
    ∀ (temp fs : List String) (p : String), p ∈ temp → p ∈ fs →
      p ∈ (cleanupLoop removeFails temp fs).2 := by
  intro temp
  induction temp with
  | nil => intro fs p hp _; simp at hp
  | cons q rest ih =>
    intro fs p hp hfs
    unfold cleanupLoop
    by_cases hq : q ∈ fs
    · simp only [hq, if_true]
      rcases List.mem_cons.mp hp with rfl | hp'
      · exact List.mem_cons_self _ _
      · by_cases hpq : p = q
        · subst hpq; exact List.mem_cons_self _ _
        · refine List.mem_cons_of_mem _ (ih _ p hp' ?_)
          by_cases hrf : removeFails q
          · simpa [hrf] using hfs
          · simp only [hrf, if_false]
            exact List.mem_erase_of_ne hpq |>.mpr hfs
    · simp only [hq, if_false]
      rcases List.mem_cons.mp hp with rfl | hp'
      · exact absurd hfs hq
      · exact ih fs p hp' hfs

/-- C8: every MP3 file `get_hour_voice` saves successfully is appended to
the in-memory `temp_files` list, and `cleanup` attempts to delete every
tracked file that exists on disk and leaves the tracked list empty. -/
theorem temp_files_ephemeral :
    (∀ (cfg : Config) (env : Env) (t f : List String) (i : HourInput)
        (p : String),
      (getHourVoice cfg env t f i).voicePath = some p →
        p ∈ (getHourVoice cfg env t f i).tempFiles) ∧
    (∀ (removeFails : String → Bool) (temp fs : List String),
      (cleanupRun removeFails temp fs).2.1 = [] ∧
        ∀ p ∈ temp, p ∈ fs → p ∈ (cleanupRun removeFails temp fs).2.2) := by
  constructor
  · intro cfg env t f i p hp
    rcases getHourVoice_cases cfg env t f i with
      ⟨m, _, heq⟩ | ⟨h, _, _, heq⟩ | ⟨h, _, _, hrest⟩
    · rw [heq] at hp; simp at hp
    · rw [heq] at hp; simp at hp
    · rcases hrest with ⟨_, heq⟩ | ⟨_, _, heq⟩ | ⟨_, _, _, _, heq⟩ |
        ⟨data, _, _, _, hrest'⟩
      · rw [heq] at hp; simp at hp
      · rw [heq] at hp; simp at hp
      · rw [heq] at hp; simp at hp
      · rcases hrest' with ⟨_, heq⟩ | ⟨_, _, heq⟩ | ⟨_, _, _, heq⟩ |
          ⟨_, _, _, heq⟩ <;> rw [heq] at hp <;> simp at hp
        case _ =>
          rw [heq]
          simp [hp]
  · intro removeFails temp fs
    refine ⟨rfl, ?_⟩
    intro p hp hfs
    exact cleanupLoop_attempts removeFails temp fs p hp hfs

/-- Witness for C8: the successful fetch at hour 12 tracks its MP3 path,
and cleaning up that state attempts the deletion and clears the list. -/
theorem temp_files_ephemeral_witness :
    (getHourVoice defaultConfig envSuccess [] [] (.int 12)).voicePath =
        some successPath ∧
      successPath ∈
        (getHourVoice defaultConfig envSuccess [] [] (.int 12)).tempFiles ∧
      (cleanupRun (fun _ => false) [successPath] [successPath]).2.1 = [] ∧
      successPath ∈
        (cleanupRun (fun _ => false) [successPath] [successPath]).2.2 :=
  ⟨rfl,
    temp_files_ephemeral.1 defaultConfig envSuccess [] [] (.int 12)
      successPath rfl,
    (temp_files_ephemeral.2 (fun _ => false) [successPath] [successPath]).1,
    (temp_files_ephemeral.2 (fun _ => false) [successPath] [successPath]).2
      successPath (List.mem_singleton.mpr rfl) (List.mem_singleton.mpr rfl)⟩

/-- C3: every command handled by `on_handle_context` preserves
duplicate-freedom of the channel list: `添加报时频道` refuses a session
already present and otherwise appends a fresh one, `删除报时频道` removes
one, and no other branch touches the list. -/
theorem channels_nodup_preserved (cfg : Config) (env : Env)
    (t f : List String) (ctx : Ctx)
    (hnd : cfg.autoReport.channels.Nodup) :
    (handleContext cfg env t f ctx).config.autoReport.channels.Nodup := by
  obtain ⟨isTextV, contentV, sessV⟩ := ctx
  unfold handleContext
  rcases sessV with _ | sid <;> dsimp only <;> repeat' split
  all_goals first
    | exact hnd
    | exact hnd.erase _
    | simp_all [List.nodup_append]

/-- Witness for C3: adding a fresh session to a duplicate-free two-channel
list keeps the list duplicate-free. -/
theorem channels_nodup_preserved_witness :
    (({ apiUrl := "https://xiaoapi.cn/API/zs_zdbs.php",
        autoReport := { enabled := true, channels := ["a", "b"] } } :
          Config).autoReport.channels.Nodup) ∧
      (handleContext
        { apiUrl := "https://xiaoapi.cn/API/zs_zdbs.php",
          autoReport := { enabled := true, channels := ["a", "b"] } }
        envAllFail [] [] ⟨true, "添加报时频道", some "c"⟩).config.autoReport.channels.Nodup :=
  ⟨by decide,
    channels_nodup_preserved
      { apiUrl := "https://xiaoapi.cn/API/zs_zdbs.php",
        autoReport := { enabled := true, channels := ["a", "b"] } }
      envAllFail [] [] ⟨true, "添加报时频道", some "c"⟩ (by decide)⟩

/-- C4: replaying the event trace of any `on_handle_context` call against
a config file holding the pre-state yields exactly the post-state config
(every mutation is flushed via `save_config`, and commands that do not
mutate leave the file unchanged); no `save_config` ever occurs after the
reply is constructed; and whenever the config changed, a save occurred. -/
theorem config_saved_before_reply (cfg : Config) (env : Env)
    (t f : List String) (ctx : Ctx) :
    runFile cfg (handleContext cfg env t f ctx).events =
        (handleContext cfg env t f ctx).config ∧
      noSaveAfterReply (handleContext cfg env t f ctx).events = true ∧
      ((handleContext cfg env t f ctx).config ≠ cfg →
        (handleContext cfg env t f ctx).events.any Ev.isSave = true) := by
  obtain ⟨isTextV, contentV, sessV⟩ := ctx
  unfold handleContext
  rcases sessV with _ | sid <;> dsimp only <;> repeat' split
  all_goals first
    | exact ⟨rfl, rfl, fun hc => absurd rfl hc⟩
    | exact ⟨rfl, rfl, fun _ => rfl⟩

/-- Witness for C4: the `添加报时频道` command on an empty channel list
mutates the config, and replaying its trace writes the new config. -/
theorem config_saved_before_reply_witness :
    ((handleContext defaultConfig envAllFail [] []
        ⟨true, "添加报时频道", some "c"⟩).config ≠ defaultConfig) ∧
      runFile defaultConfig
          (handleContext defaultConfig envAllFail [] []
            ⟨true, "添加报时频道", some "c"⟩).events =
        (handleContext defaultConfig envAllFail [] []
          ⟨true, "添加报时频道", some "c"⟩).config ∧
      (handleContext defaultConfig envAllFail [] []
          ⟨true, "添加报时频道", some "c"⟩).events.any Ev.isSave = true :=
  ⟨by decide,
    (config_saved_before_reply defaultConfig envAllFail [] []
      ⟨true, "添加报时频道", some "c"⟩).1,
    (config_saved_before_reply defaultConfig envAllFail [] []
      ⟨true, "添加报时频道", some "c"⟩).2.2 (by decide)⟩

/-- Counterexample to C2 as stated: in an environment where the voice
fetch fully succeeds, the reply to `整点报时` is a single VOICE reply
whose content is the MP3 path; the fetched announcement text appears in no
reply, neither verbatim nor as a substring. -/
theorem reply_lacks_text_counterexample :
    (handleContext defaultConfig envSuccess [] []
        ⟨true, "整点报时", some "sess"⟩).events =
        [Ev.reply ⟨ReplyType.voice, successPath⟩] ∧
      (getHourVoice defaultConfig envSuccess [] [] .none).textMsg =
        successMsg ∧
      replyMentions
        (handleContext defaultConfig envSuccess [] []
          ⟨true, "整点报时", some "sess"⟩).events successMsg = false :=
  ⟨rfl, rfl, rfl⟩

/-- C2 (amended): for `整点报时` (and `报时 N`) the handler replies with
`_handle_voice_result`, which on a successful fetch sends the voice clip
alone (a VOICE reply whose content is the file path) and sends the fetched
text only when the voice fetch fails. -/
theorem reply_voice_only_on_success (cfg : Config) (env : Env)
    (t f : List String) (ctx : Ctx) :
    (ctx.isText = true → pyStrip ctx.content = "整点报时" →
      (handleContext cfg env t f ctx).events =
        [Ev.reply (handleVoiceResult
          (getHourVoice cfg env t f .none).voicePath
          (getHourVoice cfg env t f .none).textMsg)]) ∧
    (∀ hs, ctx.isText = true → pyStrip ctx.content ≠ "整点报时" →
      matchBaoshi? (pyStrip ctx.content) = some hs →
      (handleContext cfg env t f ctx).events =
        [Ev.reply (handleVoiceResult
          (getHourVoice cfg env t f (.str hs)).voicePath
          (getHourVoice cfg env t f (.str hs)).textMsg)]) ∧
    (∀ (vp : Option String) (txt p : String), vp = some p →
      handleVoiceResult vp txt = ⟨ReplyType.voice, p⟩) ∧
    (∀ txt, handleVoiceResult Option.none txt = ⟨ReplyType.text, txt⟩) := by
  refine ⟨?_, ?_, ?_, ?_⟩
  · intro hT hst
    simp [handleContext, hT, hst]
  · intro hs hT hne hm
    simp [handleContext, hT, hne, hm]
  · intro vp txt p hp
    subst hp
    rfl
  · intro txt
    rfl

/-- Witness for C2 (amended) at the all-success environment: the reply is
the voice clip alone. -/
theorem reply_voice_only_on_success_witness :
    (pyStrip "整点报时" = "整点报时") ∧
      (handleContext defaultConfig envSuccess [] []
          ⟨true, "整点报时", some "sess"⟩).events =
        [Ev.reply (handleVoiceResult
          (getHourVoice defaultConfig envSuccess [] [] .none).voicePath
          (getHourVoice defaultConfig envSuccess [] [] .none).textMsg)] ∧
      handleVoiceResult (some successPath) successMsg =
        ⟨ReplyType.voice, successPath⟩ :=
  ⟨rfl,
    (reply_voice_only_on_success defaultConfig envSuccess [] []
      ⟨true, "整点报时", some "sess"⟩).1 rfl rfl,
    (reply_voice_only_on_success defaultConfig envSuccess [] []
      ⟨true, "整点报时", some "sess"⟩).2.2.1 (some successPath) successMsg
      successPath rfl⟩

end HourlyVoice
